import Mathlib

/-!
Verification of the bitify image-to-ASCII-art pipeline (src/main.rs).

The development shallowly embeds the two core components of the program:
the sampler/quantizer (`process_image`) and the glyph rasterizer
(`save_ascii_png`).  Machine floating point (`f32`) is modelled by `ℚ`;
`as u32` / `as usize` casts of non-negative floats are modelled by
`Nat.floor`.  Images are modelled as total pixel functions together with
explicit dimensions.  The filesystem side of `save_ascii_png` (home
directory, PNG encoding) is external I/O and is out of scope; the
function here returns the composed pixel buffer, with `none` marking the
panic that the Rust code performs when it indexes `ascii_data[0]` on an
empty grid.
-/

namespace Bitify

/-- The five density presets of the CLI (src/main.rs, `enum DensityPreset`). -/
inductive DensityPreset where
  | Low
  | Medium
  | High
  | Ultra
  | Extreme
deriving DecidableEq

/-- Character palettes of the presets (src/main.rs, `DensityPreset::get_chars`). -/
def DensityPreset.get_chars : DensityPreset → List Char
  | .Low => [' ', '.', ':', '+', '#', '@']
  | .Medium => [' ', '.', ':', '-', '=', '+', '*', '#', '%', '@']
  | .High => [' ', '.', '\'', '`', '^', '"', ',', ':', ';', 'I', 'l', '!', 'i', '>', '<', '~', '+', '_', '-', '?', ']', '[', '}', '{', '1', ')', '(', '|', '\\', '/', 't', 'f', 'j', 'r', 'x', 'n', 'u', 'v', 'c', 'z', 'X', 'Y', 'U', 'J', 'C', 'L', 'Q', '0', 'O', 'Z', 'm', 'w', 'q', 'p', 'd', 'b', 'k', 'h', 'a', 'o', '*', '#', 'M', 'W', '&', '8', '%', 'B', '@']
  | .Ultra => [' ', '.', '\'', '`', '^', '"', ',', ':', ';', 'I', 'l', '!', 'i', '>', '<', '~', '+', '_', '-', '?', ']', '[', '}', '{', '1', ')', '(', '|', '\\', '/', 't', 'f', 'j', 'r', 'x', 'n', 'u', 'v', 'c', 'z', 'X', 'Y', 'U', 'J', 'C', 'L', 'Q', '0', 'O', 'Z', 'm', 'w', 'q', 'p', 'd', 'b', 'k', 'h', 'a', 'o', '*', '#', 'M', 'W', '&', '8', '%', 'B', '@', '$']
  | .Extreme => [' ', '.', '\'', '`', '^', '"', ',', ':', ';', 'I', 'l', '!', 'i', '>', '<', '~', '+', '_', '-', '?', ']', '[', '}', '{', '1', ')', '(', '|', '\\', '/', 't', 'f', 'j', 'r', 'x', 'n', 'u', 'v', 'c', 'z', 'X', 'Y', 'U', 'J', 'C', 'L', 'Q', '0', 'O', 'Z', 'm', 'w', 'q', 'p', 'd', 'b', 'k', 'h', 'a', 'o', '*', '#', 'M', 'W', '&', '8', '%', 'B', '@', '$', 'A', 'G', 'H', 'K', 'P', 'R', 'S', 'T', 'V', 'g', 's', 'y', 'e', 'F', 'D', 'N', '2', '3', '4', '5', '6', '7', '9', 'E']

/-- Default widths of the presets (src/main.rs, `DensityPreset::get_default_width`). -/
def DensityPreset.get_default_width : DensityPreset → Nat
  | .Low => 40
  | .Medium => 80
  | .High => 120
  | .Ultra => 150
  | .Extreme => 200

/-- An RGBA pixel; channels are `u8` values (0..255). -/
structure Rgba where
  r : Nat
  g : Nat
  b : Nat
  a : Nat
deriving DecidableEq

/-- An RGB color triple, as stored in `AsciiPixel.color`. -/
abbrev Color := Nat × Nat × Nat

/-- The black background color `(0,0,0)`. -/
def black : Color := (0, 0, 0)

/-- One grid cell (src/main.rs, `struct AsciiPixel`). -/
structure AsciiPixel where
  character : Char
  color : Color
deriving DecidableEq

/-- A decoded raster image: dimensions plus a total pixel function. -/
structure SourceImage where
  width : Nat
  height : Nat
  pix : Nat → Nat → Rgba

/-- A glyph bitmap: a list of rows of booleans (12 rows of 8 in the table). -/
abbrev GlyphBitmap := List (List Bool)

/-- A row of eight off bits (`[false; 8]` in the Rust glyph constants). -/
def offRow : List Bool := List.replicate 8 false

/-- The blank glyph `SPACE` (all bits off). -/
def SPACE : GlyphBitmap := List.replicate 12 offRow

/-- Glyph `DOT`. -/
def DOT : GlyphBitmap :=
  [offRow, offRow, offRow, offRow, offRow, offRow, offRow, offRow, offRow,
   [false, false, false, true, true, false, false, false],
   [false, false, false, true, true, false, false, false],
   offRow]

/-- Glyph `COLON`. -/
def COLON : GlyphBitmap :=
  [offRow, offRow, offRow,
   [false, false, false, true, true, false, false, false],
   [false, false, false, true, true, false, false, false],
   offRow, offRow,
   [false, false, false, true, true, false, false, false],
   [false, false, false, true, true, false, false, false],
   offRow, offRow, offRow]

/-- Glyph `DASH`. -/
def DASH : GlyphBitmap :=
  [offRow, offRow, offRow, offRow, offRow, offRow,
   [false, true, true, true, true, true, true, false],
   offRow, offRow, offRow, offRow, offRow]

/-- Glyph `EQUALS`. -/
def EQUALS : GlyphBitmap :=
  [offRow, offRow, offRow, offRow,
   [false, true, true, true, true, true, true, false],
   offRow, offRow,
   [false, true, true, true, true, true, true, false],
   offRow, offRow, offRow, offRow]

/-- Glyph `PLUS`. -/
def PLUS : GlyphBitmap :=
  [offRow, offRow, offRow,
   [false, false, false, true, true, false, false, false],
   [false, false, false, true, true, false, false, false],
   [false, true, true, true, true, true, true, false],
   [false, true, true, true, true, true, true, false],
   [false, false, false, true, true, false, false, false],
   [false, false, false, true, true, false, false, false],
   offRow, offRow, offRow]

/-- Glyph `ASTERISK`. -/
def ASTERISK : GlyphBitmap :=
  [offRow, offRow,
   [false, false, true, false, false, true, false, false],
   [false, false, false, true, true, false, false, false],
   [false, true, true, true, true, true, true, false],
   [false, false, false, true, true, false, false, false],
   [false, false, true, false, false, true, false, false],
   offRow, offRow, offRow, offRow, offRow]

/-- Glyph `HASH`. -/
def HASH : GlyphBitmap :=
  [offRow,
   [false, false, true, false, true, false, false, false],
   [false, false, true, false, true, false, false, false],
   [false, true, true, true, true, true, true, false],
   [false, false, true, false, true, false, false, false],
   [false, false, true, false, true, false, false, false],
   [false, true, true, true, true, true, true, false],
   [false, false, true, false, true, false, false, false],
   [false, false, true, false, true, false, false, false],
   offRow, offRow, offRow]

/-- Glyph `PERCENT`. -/
def PERCENT : GlyphBitmap :=
  [offRow,
   [false, true, true, false, false, false, true, false],
   [false, true, true, false, false, true, false, false],
   [false, false, false, false, true, false, false, false],
   [false, false, false, true, false, false, false, false],
   [false, false, true, false, false, false, false, false],
   [false, true, false, false, false, false, false, false],
   [false, true, false, false, true, true, false, false],
   [false, false, false, false, true, true, false, false],
   offRow, offRow, offRow]

/-- Glyph `AT`. -/
def AT : GlyphBitmap :=
  [[false, false, true, true, true, true, false, false],
   [false, true, false, false, false, false, true, false],
   [false, true, false, true, true, false, true, false],
   [false, true, true, false, false, true, true, false],
   [false, true, true, false, false, true, true, false],
   [false, true, true, false, false, true, true, false],
   [false, true, false, true, true, true, false, false],
   [false, true, false, false, false, false, false, false],
   [false, false, true, true, true, true, false, false],
   offRow, offRow, offRow]

/-- Glyph `CARET`. -/
def CARET : GlyphBitmap :=
  [offRow,
   [false, false, false, true, true, false, false, false],
   [false, false, true, false, false, true, false, false],
   [false, true, false, false, false, false, true, false],
   offRow, offRow, offRow, offRow, offRow, offRow, offRow, offRow]

/-- Glyph `GREATER`. -/
def GREATER : GlyphBitmap :=
  [offRow, offRow,
   [false, false, true, false, false, false, false, false],
   [false, false, false, true, false, false, false, false],
   [false, false, false, false, true, false, false, false],
   [false, false, false, false, false, true, false, false],
   [false, false, false, false, true, false, false, false],
   [false, false, false, true, false, false, false, false],
   [false, false, true, false, false, false, false, false],
   offRow, offRow, offRow]

/-- Glyph `LESS`. -/
def LESS : GlyphBitmap :=
  [offRow, offRow,
   [false, false, false, false, false, true, false, false],
   [false, false, false, false, true, false, false, false],
   [false, false, false, true, false, false, false, false],
   [false, false, true, false, false, false, false, false],
   [false, false, false, true, false, false, false, false],
   [false, false, false, false, true, false, false, false],
   [false, false, false, false, false, true, false, false],
   offRow, offRow, offRow]

/-- Glyph `TILDE`. -/
def TILDE : GlyphBitmap :=
  [offRow, offRow, offRow, offRow,
   [false, false, true, true, false, false, true, false],
   [false, true, false, false, true, true, false, false],
   offRow, offRow, offRow, offRow, offRow, offRow]

/-- Glyph `UNDERSCORE`. -/
def UNDERSCORE : GlyphBitmap :=
  [offRow, offRow, offRow, offRow, offRow, offRow, offRow, offRow, offRow, offRow, offRow,
   [true, true, true, true, true, true, true, true]]

/-- Glyph `QUESTION`. -/
def QUESTION : GlyphBitmap :=
  [offRow,
   [false, false, true, true, true, true, false, false],
   [false, true, false, false, false, false, true, false],
   [false, false, false, false, false, true, false, false],
   [false, false, false, false, true, false, false, false],
   [false, false, false, true, false, false, false, false],
   [false, false, false, true, false, false, false, false],
   offRow,
   [false, false, false, true, false, false, false, false],
   offRow, offRow, offRow]

/-- Glyph `BRACKET_RIGHT`. -/
def BRACKET_RIGHT : GlyphBitmap :=
  [[false, true, true, true, false, false, false, false],
   [false, false, false, true, false, false, false, false],
   [false, false, false, true, false, false, false, false],
   [false, false, false, true, false, false, false, false],
   [false, false, false, true, false, false, false, false],
   [false, false, false, true, false, false, false, false],
   [false, false, false, true, false, false, false, false],
   [false, false, false, true, false, false, false, false],
   [false, false, false, true, false, false, false, false],
   [false, true, true, true, false, false, false, false],
   offRow, offRow]

/-- Glyph `BRACKET_LEFT`. -/
def BRACKET_LEFT : GlyphBitmap :=
  [[false, false, false, true, true, true, false, false],
   [false, false, false, true, false, false, false, false],
   [false, false, false, true, false, false, false, false],
   [false, false, false, true, false, false, false, false],
   [false, false, false, true, false, false, false, false],
   [false, false, false, true, false, false, false, false],
   [false, false, false, true, false, false, false, false],
   [false, false, false, true, false, false, false, false],
   [false, false, false, true, false, false, false, false],
   [false, false, false, true, true, true, false, false],
   offRow, offRow]

/-- Glyph `PAREN_RIGHT`. -/
def PAREN_RIGHT : GlyphBitmap :=
  [[false, false, true, false, false, false, false, false],
   [false, false, false, true, false, false, false, false],
   [false, false, false, false, true, false, false, false],
   [false, false, false, false, true, false, false, false],
   [false, false, false, false, true, false, false, false],
   [false, false, false, false, true, false, false, false],
   [false, false, false, false, true, false, false, false],
   [false, false, false, false, true, false, false, false],
   [false, false, false, true, false, false, false, false],
   [false, false, true, false, false, false, false, false],
   offRow, offRow]

/-- Glyph `PAREN_LEFT`. -/
def PAREN_LEFT : GlyphBitmap :=
  [[false, false, false, false, true, false, false, false],
   [false, false, false, true, false, false, false, false],
   [false, false, true, false, false, false, false, false],
   [false, false, true, false, false, false, false, false],
   [false, false, true, false, false, false, false, false],
   [false, false, true, false, false, false, false, false],
   [false, false, true, false, false, false, false, false],
   [false, false, true, false, false, false, false, false],
   [false, false, false, true, false, false, false, false],
   [false, false, false, false, true, false, false, false],
   offRow, offRow]

/-- Glyph `PIPE_PATTERN`. -/
def PIPE_PATTERN : GlyphBitmap :=
  [[false, false, false, true, true, false, false, false],
   [false, false, false, true, true, false, false, false],
   [false, false, false, true, true, false, false, false],
   [false, false, false, true, true, false, false, false],
   [false, false, false, true, true, false, false, false],
   [false, false, false, true, true, false, false, false],
   [false, false, false, true, true, false, false, false],
   [false, false, false, true, true, false, false, false],
   [false, false, false, true, true, false, false, false],
   [false, false, false, true, true, false, false, false],
   offRow, offRow]

/-- Glyph `BACKSLASH`. -/
def BACKSLASH : GlyphBitmap :=
  [[false, true, false, false, false, false, false, false],
   [false, true, false, false, false, false, false, false],
   [false, false, true, false, false, false, false, false],
   [false, false, true, false, false, false, false, false],
   [false, false, false, true, false, false, false, false],
   [false, false, false, true, false, false, false, false],
   [false, false, false, false, true, false, false, false],
   [false, false, false, false, true, false, false, false],
   [false, false, false, false, false, true, false, false],
   [false, false, false, false, false, true, false, false],
   offRow, offRow]

/-- Glyph `SLASH`. -/
def SLASH : GlyphBitmap :=
  [[false, false, false, false, false, true, false, false],
   [false, false, false, false, false, true, false, false],
   [false, false, false, false, true, false, false, false],
   [false, false, false, false, true, false, false, false],
   [false, false, false, true, false, false, false, false],
   [false, false, false, true, false, false, false, false],
   [false, false, true, false, false, false, false, false],
   [false, false, true, false, false, false, false, false],
   [false, true, false, false, false, false, false, false],
   [false, true, false, false, false, false, false, false],
   offRow, offRow]

/-- Glyph `ZERO`. -/
def ZERO : GlyphBitmap :=
  [[false, false, true, true, true, true, false, false],
   [false, true, false, false, false, false, true, false],
   [false, true, false, false, false, true, true, false],
   [false, true, false, false, true, false, true, false],
   [false, true, false, true, false, false, true, false],
   [false, true, true, false, false, false, true, false],
   [false, true, false, false, false, false, true, false],
   [false, false, true, true, true, true, false, false],
   offRow, offRow, offRow, offRow]

/-- Glyph `SMALL_BLOCK`. -/
def SMALL_BLOCK : GlyphBitmap :=
  [offRow, offRow, offRow, offRow,
   [false, false, true, true, true, true, false, false],
   [false, false, true, true, true, true, false, false],
   [false, false, true, true, true, true, false, false],
   [false, false, true, true, true, true, false, false],
   offRow, offRow, offRow, offRow]

/-- Glyph `MEDIUM_BLOCK`. -/
def MEDIUM_BLOCK : GlyphBitmap :=
  [offRow, offRow,
   [false, true, true, true, true, true, true, false],
   [false, true, true, true, true, true, true, false],
   [false, true, true, true, true, true, true, false],
   [false, true, true, true, true, true, true, false],
   [false, true, true, true, true, true, true, false],
   [false, true, true, true, true, true, true, false],
   offRow, offRow, offRow, offRow]

/-- Glyph `LARGE_BLOCK`. -/
def LARGE_BLOCK : GlyphBitmap :=
  [offRow,
   [true, true, true, true, true, true, true, true],
   [true, true, true, true, true, true, true, true],
   [true, true, true, true, true, true, true, true],
   [true, true, true, true, true, true, true, true],
   [true, true, true, true, true, true, true, true],
   [true, true, true, true, true, true, true, true],
   [true, true, true, true, true, true, true, true],
   [true, true, true, true, true, true, true, true],
   [true, true, true, true, true, true, true, true],
   offRow, offRow]

/-- Static character-to-glyph lookup (src/main.rs, `get_char_pattern`). -/
def get_char_pattern (ch : Char) : GlyphBitmap :=
  match ch with
  | ' ' => SPACE
  | '.' => DOT
  | ':' => COLON
  | '-' => DASH
  | '=' => EQUALS
  | '+' => PLUS
  | '*' => ASTERISK
  | '#' => HASH
  | '%' => PERCENT
  | '@' => AT
  | '\'' => DOT
  | '`' => DOT
  | '^' => CARET
  | '"' => COLON
  | ',' => DOT
  | ';' => COLON
  | 'I' => PIPE_PATTERN
  | 'l' => PIPE_PATTERN
  | '!' => PIPE_PATTERN
  | 'i' => DOT
  | '>' => GREATER
  | '<' => LESS
  | '~' => TILDE
  | '_' => UNDERSCORE
  | '?' => QUESTION
  | ']' => BRACKET_RIGHT
  | '[' => BRACKET_LEFT
  | '}' => BRACKET_RIGHT
  | '{' => BRACKET_LEFT
  | '1' => PIPE_PATTERN
  | ')' => PAREN_RIGHT
  | '(' => PAREN_LEFT
  | '|' => PIPE_PATTERN
  | '\\' => BACKSLASH
  | '/' => SLASH
  | 't' | 'f' | 'j' | 'r' | 'x' | 'n' | 'u' | 'v' | 'c' | 'z' => SMALL_BLOCK
  | 'X' | 'Y' | 'U' | 'J' | 'C' | 'L' | 'Q' | 'O' | 'Z' => MEDIUM_BLOCK
  | '0' => ZERO
  | 'm' | 'w' | 'q' | 'p' | 'd' | 'b' | 'k' | 'h' | 'a' | 'o' => SMALL_BLOCK
  | 'M' | 'W' | 'B' | 'A' | 'G' | 'H' | 'K' | 'P' | 'R' | 'S' | 'T' | 'V' => LARGE_BLOCK
  | '&' | '8' | '$' => LARGE_BLOCK
  | 'g' | 's' | 'y' | 'e' | 'F' | 'D' | 'N' => MEDIUM_BLOCK
  | '2' | '3' | '4' | '5' | '6' | '7' | '9' | 'E' => MEDIUM_BLOCK
  | _ => SPACE

/-- Modelled from the spec: nearest-neighbor point sampling performed by the
external image crate (`img.resize_exact(tw, th, FilterType::Nearest)`), which
is an external collaborator, not part of this repository.  Each target pixel
reads one source pixel. -/
def resize_exact (img : SourceImage) (tw th : Nat) : SourceImage :=
  { width := tw
    height := th
    pix := fun x y => img.pix (x * img.width / tw) (y * img.height / th) }

/-- The derived target height of `process_image` (src/main.rs lines 112-113):
the `f32` expression `target_width * (height / width) * 0.5` cast with
`as u32`, which truncates toward zero; modelled over `ℚ` with `Nat.floor`. -/
def target_height (width height target_width : Nat) : Nat :=
  let aspect : ℚ := (height : ℚ) / (width : ℚ)
  ⌊(target_width : ℚ) * aspect * (1 / 2)⌋₊

/-- Second definition, following the spec words for the derived height:
`round(target_width * (source_height / source_width) * 0.5)`. -/
def target_height_round_spec (width height target_width : Nat) : Nat :=
  (round ((target_width : ℚ) * ((height : ℚ) / (width : ℚ)) * (1 / 2))).toNat

/-- Perceptual brightness of a sampled pixel (src/main.rs line 127):
`(r*0.299 + g*0.587 + b*0.114) / 255.0`, over `ℚ`; alpha is ignored. -/
def brightness (p : Rgba) : ℚ :=
  ((p.r : ℚ) * (299 / 1000) + (p.g : ℚ) * (587 / 1000) + (p.b : ℚ) * (114 / 1000)) / 255

/-- The character index of `process_image` (src/main.rs line 129):
`(brightness * (ascii_chars.len() - 1) as f32) as usize`, the cast again
truncating toward zero. -/
def char_index (b : ℚ) (num_chars : Nat) : Nat :=
  ⌊b * ((num_chars - 1 : Nat) : ℚ)⌋₊

/-- The body of the sampling loop of `process_image` (src/main.rs lines
124-135): one `AsciiPixel` per grid position.  The Rust code indexes
`ascii_chars[char_index]` (panicking out of bounds); here `List.getD` with
default `' '` is used, and the in-range fact is proved separately. -/
def sample_cell (resized : SourceImage) (density : DensityPreset) (x y : Nat) : AsciiPixel :=
  let rgba := resized.pix x y
  let ascii_chars := density.get_chars
  let idx := char_index (brightness rgba) ascii_chars.length
  { character := ascii_chars.getD idx ' '
    color := (rgba.r, rgba.g, rgba.b) }

/-- The sampler/quantizer (src/main.rs, `process_image`, lines 108-148),
starting from the already-decoded image (decoding is external I/O).  The
terminal ANSI string built alongside the grid is presentation glue and is
omitted; the returned value is the `ascii_data` grid, row-major. -/
def process_image (img : SourceImage) (target_width : Nat) (density : DensityPreset) :
    List (List AsciiPixel) :=
  let th := target_height img.width img.height target_width
  let resized := resize_exact img target_width th
  (List.range th).map fun y =>
    (List.range target_width).map fun x =>
      sample_cell resized density x y

/-- The output pixel buffer: dimensions plus a total pixel function. -/
structure Img where
  width : Nat
  height : Nat
  pix : Nat → Nat → Color

/-- Write one pixel (the image crate's `put_pixel`). -/
def put_pixel (img : Img) (x y : Nat) (c : Color) : Img :=
  { img with pix := fun a b => if a = x ∧ b = y then c else img.pix a b }

/-- The inner loop of the rasterizer (src/main.rs lines 181-189): one glyph
row at vertical position `y`, drawn over the enumerated bits of the row. -/
def paint_row (img : Img) (base_x y : Nat) (color : Color) (bits : List (Nat × Bool)) : Img :=
  bits.foldl
    (fun img2 pb =>
      if pb.2 then
        if base_x + pb.1 < img2.width ∧ y < img2.height then
          put_pixel img2 (base_x + pb.1) y color
        else img2
      else img2)
    img

/-- The glyph loop of the rasterizer (src/main.rs lines 180-190): all rows of
one glyph pattern, enumerated. -/
def paint_pattern (img : Img) (base_x base_y : Nat) (color : Color)
    (rows : List (Nat × List Bool)) : Img :=
  rows.foldl (fun img1 pr => paint_row img1 base_x (base_y + pr.1) color pr.2.enum) img

/-- One grid row of the rasterizer (src/main.rs lines 173-191): each cell of
the row paints its glyph at origin `(col_idx * 8, row_idx * 12)`. -/
def paint_grid_row (img : Img) (row_idx : Nat) (cells : List (Nat × AsciiPixel)) : Img :=
  cells.foldl
    (fun img1 cb =>
      paint_pattern img1 (cb.1 * 8) (row_idx * 12) cb.2.color
        (get_char_pattern cb.2.character).enum)
    img

/-- The outer loop of the rasterizer (src/main.rs lines 172-192): every grid
row, enumerated, painted in order. -/
def paint_grid (img : Img) (rowsL : List (Nat × List AsciiPixel)) : Img :=
  rowsL.foldl (fun img1 rr => paint_grid_row img1 rr.1 rr.2.enum) img

/-- The glyph rasterizer (src/main.rs, `save_ascii_png`, lines 151-196),
restricted to the pixel-buffer composition: the filesystem side (home
directory, output path, PNG encoding) is external I/O.  The Rust code indexes
`ascii_data[0]` unconditionally, panicking on an empty grid; that panic is
modelled as `none`. -/
def save_ascii_png (ascii_data : List (List AsciiPixel)) : Option Img :=
  match ascii_data with
  | [] => none
  | row0 :: rest =>
    let img_width := row0.length * 8
    let img_height := (row0 :: rest).length * 12
    let img0 : Img := { width := img_width, height := img_height, pix := fun _ _ => black }
    some (paint_grid img0 ((row0 :: rest).enum))

/-- Well-formedness of the whole glyph table: every character resolves to a
bitmap of exactly 12 rows of 8 bits. -/
def GlyphTableWf : Prop :=
  ∀ ch : Char, (get_char_pattern ch).length = 12 ∧
    ∀ row ∈ get_char_pattern ch, row.length = 8

/-- Well-formedness of a glyph bitmap: exactly 12 rows, each of 8 bits. -/
def glyph_wf (p : GlyphBitmap) : Prop :=
  p.length = 12 ∧ ∀ row ∈ p, row.length = 8

/-- The characters explicitly matched by `get_char_pattern` (every arm of the
match except the final catch-all). -/
def mapped_chars : List Char :=
  [' ', '.', ':', '-', '=', '+', '*', '#', '%', '@', '\'', '`', '^', '"', ',', ';',
   'I', 'l', '!', 'i', '>', '<', '~', '_', '?', ']', '[', '}', '{', '1', ')', '(', '|',
   '\\', '/', 't', 'f', 'j', 'r', 'x', 'n', 'u', 'v', 'c', 'z',
   'X', 'Y', 'U', 'J', 'C', 'L', 'Q', 'O', 'Z', '0',
   'm', 'w', 'q', 'p', 'd', 'b', 'k', 'h', 'a', 'o',
   'M', 'W', 'B', 'A', 'G', 'H', 'K', 'P', 'R', 'S', 'T', 'V',
   '&', '8', '$', 'g', 's', 'y', 'e', 'F', 'D', 'N',
   '2', '3', '4', '5', '6', '7', '9', 'E']

/-! ## Arithmetic helper lemmas -/

/-- The truncated derived height agrees with integer division `tw*h / (2*w)`. -/
theorem target_height_eq_div (w h tw : Nat) (hw : 1 ≤ w) :
    target_height w h tw = tw * h / (2 * w) := by
  have hw0 : (w : ℚ) ≠ 0 := Nat.cast_ne_zero.mpr (by omega)
  have key : (tw : ℚ) * ((h : ℚ) / (w : ℚ)) * (1 / 2) =
      ((tw * h : ℕ) : ℚ) / ((2 * w : ℕ) : ℚ) := by
    push_cast
    field_simp
    left
    ring
  simp only [target_height, key, Nat.floor_div_nat, Nat.floor_natCast]

/-- The character index is bounded by the palette length minus one whenever
the brightness lies in the unit interval. -/
theorem char_index_le (b : ℚ) (hb1 : b ≤ 1) (hb0 : 0 ≤ b) (n : Nat) :
    char_index b n ≤ n - 1 := by
  unfold char_index
  calc ⌊b * ((n - 1 : Nat) : ℚ)⌋₊ ≤ ⌊(((n - 1 : Nat)) : ℚ)⌋₊ :=
        Nat.floor_le_floor (mul_le_of_le_one_left (by positivity) hb1)
    _ = n - 1 := Nat.floor_natCast _

/-- At brightness zero the character index is zero. -/
theorem char_index_zero (n : Nat) : char_index 0 n = 0 := by
  simp [char_index]

/-- At brightness one the character index is the last palette position. -/
theorem char_index_one (n : Nat) : char_index 1 n = n - 1 := by
  simp [char_index]

/-! ## Claims C1, C2, C3, C5 -/

/-- C1, counterexample: the claim says the derived target height follows
`round(Tw * (H/W) * 0.5)`, but the Rust `as u32` cast truncates: for
W = 100, H = 75, Tw = 10 the expression is 3.75; the code yields 3 while
the claimed rounding yields 4. -/
theorem claim_C1_counterexample :
    target_height 100 75 10 = 3 ∧ target_height_round_spec 100 75 10 = 4 := by
  constructor
  · simp only [target_height]
    rw [Nat.floor_eq_iff (by positivity)]
    norm_num
  · norm_num [target_height_round_spec, round_eq]
    decide

/-- C1, amended: for every source image of width W >= 1 and height H and every
target width Tw, the derived target height computed by process_image equals
the truncation (floor) of `Tw * (H/W) * 0.5`, i.e. `Tw*H / (2*W)` in integer
division; in particular W = 100, H = 50, Tw = 80 yields target height 20. -/
theorem claim_C1 :
    (∀ w h tw : Nat, 1 ≤ w → target_height w h tw = tw * h / (2 * w)) ∧
      target_height 100 50 80 = 20 := by
  refine ⟨fun w h tw hw => target_height_eq_div w h tw hw, ?_⟩
  rw [target_height_eq_div 100 50 80 (by norm_num)]

/-- C1, witness: the general formula applied at W = 100, H = 50, Tw = 80. -/
theorem claim_C1_witness : target_height 100 50 80 = 80 * 50 / (2 * 100) :=
  claim_C1.1 100 50 80 (by decide)

/-- C2: contrary to the claim, no validation error is surfaced when the
derived target height is zero; `process_image` completes its sampling stage
and returns an empty grid.  For a 1-by-1 source image with target width 1 the
derived height is `floor(0.5) = 0`, and the result is the empty grid, which
`save_ascii_png` then rejects only by panicking (see C10). -/
theorem claim_C2_code_behavior :
    process_image ⟨1, 1, fun _ _ => ⟨0, 0, 0, 255⟩⟩ 1 DensityPreset.Low = [] ∧
      save_ascii_png [] = none := by
  refine ⟨?_, rfl⟩
  have h : target_height 1 1 1 = 0 := by
    simp only [target_height]
    rw [Nat.floor_eq_iff (by positivity)]
    norm_num
  simp [process_image, h]

/-- C3: for every brightness value b in [0,1] and every density preset, the
character index `floor(b * (len - 1))` lies in `[0, len - 1]`, and exactly at
the boundaries b = 0 and b = 1 it is 0 and len - 1 respectively. -/
theorem claim_C3 :
    (∀ b : ℚ, 0 ≤ b → b ≤ 1 → ∀ d : DensityPreset,
        char_index b d.get_chars.length ≤ d.get_chars.length - 1) ∧
      (∀ d : DensityPreset,
        char_index 0 d.get_chars.length = 0 ∧
          char_index 1 d.get_chars.length = d.get_chars.length - 1) :=
  ⟨fun b hb0 hb1 d => char_index_le b hb1 hb0 d.get_chars.length,
   fun d => ⟨char_index_zero _, char_index_one _⟩⟩

/-- C3, witness: the bound applied at brightness 0 with the Medium preset. -/
theorem claim_C3_witness :
    char_index 0 DensityPreset.Medium.get_chars.length ≤
      DensityPreset.Medium.get_chars.length - 1 :=
  claim_C3.1 0 (le_refl 0) zero_le_one DensityPreset.Medium

/-- C5: every density preset palette has length at least 2 and starts with
the blank character (space). -/
theorem claim_C5 :
    ∀ d : DensityPreset, 2 ≤ d.get_chars.length ∧ d.get_chars.head? = some ' ' := by
  intro d
  cases d <;> exact ⟨by decide, rfl⟩

/-! ## Claims C6 and C9 -/

/-- The derived height for a 2-by-2 source at target width 4 is positive. -/
theorem target_height_2_2_4_pos : 0 < target_height 2 2 4 := by
  have : target_height 2 2 4 = 2 := by
    simp only [target_height]
    rw [Nat.floor_eq_iff (by positivity)]
    norm_num
  omega

/-- C6: for every valid non-degenerate input (target width and derived target
height positive), the grid produced by process_image has exactly
target_height rows, every row has exactly target_width cells, and the cell at
row r, column c is the sample taken at grid coordinates (x = c, y = r), i.e.
cells appear in row-major scan order. -/
theorem claim_C6 :
    ∀ (img : SourceImage) (tw : Nat) (d : DensityPreset),
    0 < tw → 0 < target_height img.width img.height tw →
    (process_image img tw d).length = target_height img.width img.height tw ∧
    (∀ row ∈ process_image img tw d, row.length = tw) ∧
    (∀ r c : Nat, r < target_height img.width img.height tw → c < tw →
      (((process_image img tw d).getD r []).getD c ⟨' ', black⟩ =
        sample_cell (resize_exact img tw (target_height img.width img.height tw)) d c r)) := by
  intro img tw d htw hth
  refine ⟨by simp [process_image], ?_, ?_⟩
  · intro row hrow
    simp only [process_image, List.mem_map] at hrow
    obtain ⟨y, hy, rfl⟩ := hrow
    simp
  · intro r c hr hc
    have h1 : (process_image img tw d).getD r [] =
        (List.range tw).map fun x =>
          sample_cell (resize_exact img tw (target_height img.width img.height tw)) d x r := by
      simp only [process_image]
      rw [List.getD_eq_getElem?_getD]
      simp [List.getElem?_map, List.getElem?_range hr]
    rw [h1, List.getD_eq_getElem?_getD]
    simp [List.getElem?_map, List.getElem?_range hc]

/-- C6, witness: the grid-shape properties applied to a concrete 2-by-2
source image with target width 4. -/
theorem claim_C6_witness :
    (process_image ⟨2, 2, fun _ _ => ⟨7, 7, 7, 255⟩⟩ 4 DensityPreset.Low).length =
        target_height 2 2 4 ∧
      (∀ row ∈ process_image ⟨2, 2, fun _ _ => ⟨7, 7, 7, 255⟩⟩ 4 DensityPreset.Low,
        row.length = 4) ∧
      (∀ r c : Nat, r < target_height 2 2 4 → c < 4 →
        (((process_image ⟨2, 2, fun _ _ => ⟨7, 7, 7, 255⟩⟩ 4 DensityPreset.Low).getD r
              []).getD c ⟨' ', black⟩ =
          sample_cell (resize_exact ⟨2, 2, fun _ _ => ⟨7, 7, 7, 255⟩⟩ 4 (target_height 2 2 4))
            DensityPreset.Low c r)) :=
  claim_C6 ⟨2, 2, fun _ _ => ⟨7, 7, 7, 255⟩⟩ 4 DensityPreset.Low (by decide)
    target_height_2_2_4_pos

/-- C9: the pipeline is deterministic: two runs of process_image and of the
rasterization on equal decoded images, target widths and density presets
produce an identical grid and an identical output pixel buffer.  Both are
pure functions of their arguments in this embedding, mirroring the absence
of hidden mutable global state in the source. -/
theorem claim_C9 :
    ∀ (img1 img2 : SourceImage) (tw1 tw2 : Nat) (d1 d2 : DensityPreset),
    img1 = img2 → tw1 = tw2 → d1 = d2 →
    process_image img1 tw1 d1 = process_image img2 tw2 d2 ∧
      save_ascii_png (process_image img1 tw1 d1) =
        save_ascii_png (process_image img2 tw2 d2) := by
  intro img1 img2 tw1 tw2 d1 d2 h1 h2 h3
  subst h1
  subst h2
  subst h3
  exact ⟨rfl, rfl⟩

/-- C9, witness: determinism applied to a concrete run. -/
theorem claim_C9_witness :
    process_image ⟨1, 1, fun _ _ => ⟨9, 9, 9, 255⟩⟩ 2 DensityPreset.High =
        process_image ⟨1, 1, fun _ _ => ⟨9, 9, 9, 255⟩⟩ 2 DensityPreset.High ∧
      save_ascii_png (process_image ⟨1, 1, fun _ _ => ⟨9, 9, 9, 255⟩⟩ 2 DensityPreset.High) =
        save_ascii_png (process_image ⟨1, 1, fun _ _ => ⟨9, 9, 9, 255⟩⟩ 2 DensityPreset.High) :=
  claim_C9 ⟨1, 1, fun _ _ => ⟨9, 9, 9, 255⟩⟩ ⟨1, 1, fun _ _ => ⟨9, 9, 9, 255⟩⟩ 2 2
    DensityPreset.High DensityPreset.High rfl rfl rfl

/-! ## Claim C7 -/

set_option maxRecDepth 4000 in
/-- Every character reachable from a density preset resolves to a well-formed
12-row, 8-column glyph bitmap. -/
theorem reachable_glyphs_wf : ∀ d : DensityPreset, ∀ ch ∈ d.get_chars,
    (get_char_pattern ch).length = 12 ∧ ∀ row ∈ get_char_pattern ch, row.length = 8 := by
  intro d
  cases d <;> decide

set_option maxHeartbeats 2000000 in
set_option maxRecDepth 8000 in
/-- Every character outside the explicit arms of the lookup falls back to the
blank glyph. -/
theorem unmapped_char_pattern : ∀ ch : Char, ch ∉ mapped_chars → get_char_pattern ch = SPACE := by
  intro ch hch
  unfold get_char_pattern
  split
  all_goals first
    | rfl
    | exact absurd (by decide) hch

/-- The blank glyph has no on-bits. -/
theorem SPACE_all_off : ∀ row ∈ SPACE, ∀ b ∈ row, b = false := by
  decide

/-- C7: every character reachable from any density preset palette resolves
via the static lookup to exactly one well-formed 8-by-12 glyph bitmap, every
character not explicitly mapped falls back to the blank glyph instead of
failing, and the blank glyph is all-off. -/
theorem claim_C7 :
    (∀ d : DensityPreset, ∀ ch ∈ d.get_chars,
        (get_char_pattern ch).length = 12 ∧ ∀ row ∈ get_char_pattern ch, row.length = 8) ∧
      (∀ ch : Char, ch ∉ mapped_chars → get_char_pattern ch = SPACE) ∧
      (∀ row ∈ SPACE, ∀ b ∈ row, b = false) :=
  ⟨reachable_glyphs_wf, unmapped_char_pattern, SPACE_all_off⟩

/-- C7, witness: the lookup applied to the reachable character at-sign and to
an unmapped character. -/
theorem claim_C7_witness :
    ((get_char_pattern '@').length = 12 ∧ ∀ row ∈ get_char_pattern '@', row.length = 8) ∧
      get_char_pattern 'é' = SPACE :=
  ⟨claim_C7.1 DensityPreset.Low '@' (by decide), claim_C7.2.1 'é' (by decide)⟩

/-! ## Rasterizer lemmas -/

-- level 1 lemmas

theorem paint_row_nil (i : Img) (bx y : Nat) (c : Color) : paint_row i bx y c [] = i := rfl

theorem paint_row_cons (i : Img) (bx y : Nat) (c : Color) (p : Nat × Bool)
    (t : List (Nat × Bool)) :
    paint_row i bx y c (p :: t) =
      paint_row
        (if p.2 then
          if bx + p.1 < i.width ∧ y < i.height then put_pixel i (bx + p.1) y c else i
        else i) bx y c t := rfl

theorem put_pixel_width (i : Img) (x y : Nat) (c : Color) : (put_pixel i x y c).width = i.width :=
  rfl

theorem put_pixel_height (i : Img) (x y : Nat) (c : Color) :
    (put_pixel i x y c).height = i.height := rfl

theorem put_pixel_pix (i : Img) (x y : Nat) (c : Color) (a b : Nat) :
    (put_pixel i x y c).pix a b = if a = x ∧ b = y then c else i.pix a b := rfl

theorem paint_row_width (l : List (Nat × Bool)) :
    ∀ (i : Img) (bx y : Nat) (c : Color), (paint_row i bx y c l).width = i.width := by
  induction l with
  | nil => intro i bx y c; rfl
  | cons p t ih =>
    intro i bx y c
    rw [paint_row_cons, ih]
    split
    · split <;> rfl
    · rfl

theorem paint_row_height (l : List (Nat × Bool)) :
    ∀ (i : Img) (bx y : Nat) (c : Color), (paint_row i bx y c l).height = i.height := by
  induction l with
  | nil => intro i bx y c; rfl
  | cons p t ih =>
    intro i bx y c
    rw [paint_row_cons, ih]
    split
    · split <;> rfl
    · rfl

theorem paint_row_pix_cases (l : List (Nat × Bool)) :
    ∀ (i : Img) (bx y : Nat) (c : Color) (a b : Nat),
      (paint_row i bx y c l).pix a b = c ∨ (paint_row i bx y c l).pix a b = i.pix a b := by
  induction l with
  | nil => intro i bx y c a b; exact Or.inr rfl
  | cons p t ih =>
    intro i bx y c a b
    rw [paint_row_cons]
    rcases ih _ bx y c a b with h | h
    · exact Or.inl h
    · rw [h]
      split
      · split
        · rw [put_pixel_pix]
          split
          · exact Or.inl rfl
          · exact Or.inr rfl
        · exact Or.inr rfl
      · exact Or.inr rfl

theorem paint_row_pix_untouched (l : List (Nat × Bool)) :
    ∀ (i : Img) (bx y : Nat) (c : Color) (a b : Nat),
      (∀ px : Nat, (px, true) ∈ l → ¬(a = bx + px ∧ b = y)) →
      (paint_row i bx y c l).pix a b = i.pix a b := by
  induction l with
  | nil => intro i bx y c a b _; rfl
  | cons p t ih =>
    intro i bx y c a b hmiss
    rw [paint_row_cons]
    rw [ih _ bx y c a b fun px hpx => hmiss px (List.mem_cons_of_mem _ hpx)]
    split
    · split
      · rw [put_pixel_pix]
        split
        · rename_i hp _ heq
          exact absurd heq (by
            obtain ⟨px, pb⟩ := p
            cases pb
            · exact absurd hp (by simp)
            · exact hmiss px (List.mem_cons_self _ _))
        · rfl
      · rfl
    · rfl

theorem paint_row_pix_on (l : List (Nat × Bool)) :
    ∀ (i : Img) (bx y : Nat) (c : Color) (px : Nat),
      (px, true) ∈ l → bx + px < i.width → y < i.height →
      (paint_row i bx y c l).pix (bx + px) y = c := by
  induction l with
  | nil => intro i bx y c px hmem; exact absurd hmem (by simp)
  | cons p t ih =>
    intro i bx y c px hmem hxlt hylt
    rw [paint_row_cons]
    rcases List.mem_cons.mp hmem with heq | hmem2
    · subst heq
      simp only [ite_true]
      rw [if_pos ⟨hxlt, hylt⟩]
      rcases paint_row_pix_cases t (put_pixel i (bx + px) y c) bx y c (bx + px) y with h | h
      · exact h
      · rw [h, put_pixel_pix, if_pos ⟨rfl, rfl⟩]
    · have hw : ∀ j : Img, j.width = i.width → j.height = i.height →
          (paint_row j bx y c t).pix (bx + px) y = c := fun j hjw hjh =>
        ih j bx y c px hmem2 (hjw ▸ hxlt) (hjh ▸ hylt)
      split
      · split
        · exact hw _ rfl rfl
        · exact hw _ rfl rfl
      · exact hw _ rfl rfl

theorem paint_row_pix_oob (l : List (Nat × Bool)) :
    ∀ (i : Img) (bx y : Nat) (c : Color) (a b : Nat),
      i.width ≤ a ∨ i.height ≤ b →
      (paint_row i bx y c l).pix a b = i.pix a b := by
  induction l with
  | nil => intro i bx y c a b _; rfl
  | cons p t ih =>
    intro i bx y c a b hoob
    rw [paint_row_cons]
    split
    · split
      · rename_i hb
        rw [ih _ bx y c a b (by rw [put_pixel_width, put_pixel_height]; exact hoob)]
        rw [put_pixel_pix]
        split
        · rename_i heq
          obtain ⟨rfl, rfl⟩ := heq
          rcases hoob with h | h
          · exact absurd hb.1 (by omega)
          · exact absurd hb.2 (by omega)
        · rfl
      · exact ih _ bx y c a b hoob
    · exact ih _ bx y c a b hoob

-- enum helper lemmas

theorem mem_enum_lt {α : Type} {l : List α} {i : Nat} {x : α} (h : (i, x) ∈ l.enum) :
    i < l.length := by
  rw [List.mk_mem_enum_iff_getElem?] at h
  exact (List.getElem?_eq_some.mp h).1

theorem mem_enum_get? {α : Type} {l : List α} {i : Nat} {x : α} (h : (i, x) ∈ l.enum) :
    l.get? i = some x := by
  rw [List.mk_mem_enum_iff_getElem?] at h
  rw [List.get?_eq_getElem?]
  exact h

theorem get?_mem_enum {α : Type} {l : List α} {i : Nat} {x : α} (h : l.get? i = some x) :
    (i, x) ∈ l.enum := by
  rw [List.mk_mem_enum_iff_getElem?]
  rw [List.get?_eq_getElem?] at h
  exact h

theorem mem_enum_unique {α : Type} {l : List α} {i : Nat} {x y : α}
    (hx : (i, x) ∈ l.enum) (hy : l.get? i = some y) : x = y := by
  have := mem_enum_get? hx
  rw [this] at hy
  exact Option.some_inj.mp hy

-- level 2 lemmas

theorem paint_pattern_nil (i : Img) (bx by2 : Nat) (c : Color) :
    paint_pattern i bx by2 c [] = i := rfl

theorem paint_pattern_cons (i : Img) (bx by2 : Nat) (c : Color) (p : Nat × List Bool)
    (t : List (Nat × List Bool)) :
    paint_pattern i bx by2 c (p :: t) =
      paint_pattern (paint_row i bx (by2 + p.1) c p.2.enum) bx by2 c t := rfl

theorem paint_pattern_width (l : List (Nat × List Bool)) :
    ∀ (i : Img) (bx by2 : Nat) (c : Color), (paint_pattern i bx by2 c l).width = i.width := by
  induction l with
  | nil => intro i bx by2 c; rfl
  | cons p t ih =>
    intro i bx by2 c
    rw [paint_pattern_cons, ih, paint_row_width]

theorem paint_pattern_height (l : List (Nat × List Bool)) :
    ∀ (i : Img) (bx by2 : Nat) (c : Color), (paint_pattern i bx by2 c l).height = i.height := by
  induction l with
  | nil => intro i bx by2 c; rfl
  | cons p t ih =>
    intro i bx by2 c
    rw [paint_pattern_cons, ih, paint_row_height]

theorem paint_pattern_pix_cases (l : List (Nat × List Bool)) :
    ∀ (i : Img) (bx by2 : Nat) (c : Color) (a b : Nat),
      (paint_pattern i bx by2 c l).pix a b = c ∨
        (paint_pattern i bx by2 c l).pix a b = i.pix a b := by
  induction l with
  | nil => intro i bx by2 c a b; exact Or.inr rfl
  | cons p t ih =>
    intro i bx by2 c a b
    rw [paint_pattern_cons]
    rcases ih _ bx by2 c a b with h | h
    · exact Or.inl h
    · rw [h]
      rcases paint_row_pix_cases p.2.enum i bx (by2 + p.1) c a b with h2 | h2
      · exact Or.inl h2
      · exact Or.inr h2

theorem paint_pattern_pix_untouched (l : List (Nat × List Bool)) :
    ∀ (i : Img) (bx by2 : Nat) (c : Color) (a b : Nat),
      (∀ (py : Nat) (row : List Bool) (px : Nat),
        (py, row) ∈ l → (px, true) ∈ row.enum → ¬(a = bx + px ∧ b = by2 + py)) →
      (paint_pattern i bx by2 c l).pix a b = i.pix a b := by
  induction l with
  | nil => intro i bx by2 c a b _; rfl
  | cons p t ih =>
    intro i bx by2 c a b hmiss
    rw [paint_pattern_cons]
    rw [ih _ bx by2 c a b fun py row px hrow hbit =>
      hmiss py row px (List.mem_cons_of_mem _ hrow) hbit]
    exact paint_row_pix_untouched p.2.enum i bx (by2 + p.1) c a b fun px hbit =>
      hmiss p.1 p.2 px (List.mem_cons_self _ _) hbit

theorem paint_pattern_pix_on (l : List (Nat × List Bool)) :
    ∀ (i : Img) (bx by2 : Nat) (c : Color) (py : Nat) (row : List Bool) (px : Nat),
      (py, row) ∈ l → (px, true) ∈ row.enum →
      bx + px < i.width → by2 + py < i.height →
      (paint_pattern i bx by2 c l).pix (bx + px) (by2 + py) = c := by
  induction l with
  | nil => intro i bx by2 c py row px hmem; exact absurd hmem (by simp)
  | cons p t ih =>
    intro i bx by2 c py row px hmem hbit hxlt hylt
    rw [paint_pattern_cons]
    rcases List.mem_cons.mp hmem with heq | hmem2
    · subst heq
      have h1 : (paint_row i bx (by2 + py) c row.enum).pix (bx + px) (by2 + py) = c :=
        paint_row_pix_on row.enum i bx (by2 + py) c px hbit hxlt hylt
      rcases paint_pattern_pix_cases t _ bx by2 c (bx + px) (by2 + py) with h | h
      · exact h
      · rw [h]; exact h1
    · exact ih _ bx by2 c py row px hmem2 hbit
        (by rw [paint_row_width]; exact hxlt)
        (by rw [paint_row_height]; exact hylt)

theorem paint_pattern_pix_oob (l : List (Nat × List Bool)) :
    ∀ (i : Img) (bx by2 : Nat) (c : Color) (a b : Nat),
      i.width ≤ a ∨ i.height ≤ b →
      (paint_pattern i bx by2 c l).pix a b = i.pix a b := by
  induction l with
  | nil => intro i bx by2 c a b _; rfl
  | cons p t ih =>
    intro i bx by2 c a b hoob
    rw [paint_pattern_cons]
    rw [ih _ bx by2 c a b (by rw [paint_row_width, paint_row_height]; exact hoob)]
    exact paint_row_pix_oob p.2.enum i bx (by2 + p.1) c a b hoob

theorem paint_pattern_pix_outside (l : List (Nat × List Bool)) (i : Img) (bx by2 : Nat)
    (c : Color) (a b : Nat)
    (hwf : ∀ pr ∈ l, pr.1 < 12 ∧ (pr.2 : List Bool).length ≤ 8)
    (hout : ¬(bx ≤ a ∧ a < bx + 8 ∧ by2 ≤ b ∧ b < by2 + 12)) :
    (paint_pattern i bx by2 c l).pix a b = i.pix a b := by
  refine paint_pattern_pix_untouched l i bx by2 c a b ?_
  intro py row px hrow hbit heq
  obtain ⟨rfl, rfl⟩ := heq
  have h1 := mem_enum_lt hbit
  have h2 := (hwf _ hrow).1
  have h3 : row.length ≤ 8 := (hwf _ hrow).2
  exact hout ⟨Nat.le_add_right _ _, by omega, Nat.le_add_right _ _, by omega⟩

theorem glyph_enum_wf (hglyph : GlyphTableWf) (ch : Char) :
    ∀ pr ∈ (get_char_pattern ch).enum, pr.1 < 12 ∧ (pr.2 : List Bool).length ≤ 8 := by
  intro pr hpr
  obtain ⟨py, row⟩ := pr
  have h1 := mem_enum_lt hpr
  have h2 := mem_enum_get? hpr
  have h3 : row ∈ get_char_pattern ch := List.get?_mem h2
  exact ⟨by rw [(hglyph ch).1] at h1; exact h1, le_of_eq ((hglyph ch).2 row h3)⟩

-- level 3 lemmas

theorem paint_grid_row_nil (i : Img) (r : Nat) : paint_grid_row i r [] = i := rfl

theorem paint_grid_row_cons (i : Img) (r : Nat) (p : Nat × AsciiPixel)
    (t : List (Nat × AsciiPixel)) :
    paint_grid_row i r (p :: t) =
      paint_grid_row
        (paint_pattern i (p.1 * 8) (r * 12) p.2.color (get_char_pattern p.2.character).enum)
        r t := rfl

theorem paint_grid_row_width (l : List (Nat × AsciiPixel)) :
    ∀ (i : Img) (r : Nat), (paint_grid_row i r l).width = i.width := by
  induction l with
  | nil => intro i r; rfl
  | cons p t ih =>
    intro i r
    rw [paint_grid_row_cons, ih, paint_pattern_width]

theorem paint_grid_row_height (l : List (Nat × AsciiPixel)) :
    ∀ (i : Img) (r : Nat), (paint_grid_row i r l).height = i.height := by
  induction l with
  | nil => intro i r; rfl
  | cons p t ih =>
    intro i r
    rw [paint_grid_row_cons, ih, paint_pattern_height]

theorem paint_grid_row_pix_other_row (hglyph : GlyphTableWf) (l : List (Nat × AsciiPixel)) :
    ∀ (i : Img) (r : Nat) (a b : Nat),
      ¬(r * 12 ≤ b ∧ b < r * 12 + 12) →
      (paint_grid_row i r l).pix a b = i.pix a b := by
  induction l with
  | nil => intro i r a b _; rfl
  | cons p t ih =>
    intro i r a b hb
    rw [paint_grid_row_cons, ih _ r a b hb]
    exact paint_pattern_pix_outside _ i _ _ _ a b (glyph_enum_wf hglyph _)
      (fun hreg => hb ⟨hreg.2.2.1, hreg.2.2.2⟩)

theorem paint_grid_row_pix_cases (hglyph : GlyphTableWf) (l : List (Nat × AsciiPixel)) :
    ∀ (i : Img) (r : Nat) (c0 : Nat) (cell : AsciiPixel) (px b : Nat),
      (∀ a1 : AsciiPixel, (c0, a1) ∈ l → a1 = cell) → px < 8 →
      (paint_grid_row i r l).pix (c0 * 8 + px) b = cell.color ∨
        (paint_grid_row i r l).pix (c0 * 8 + px) b = i.pix (c0 * 8 + px) b := by
  induction l with
  | nil => intro i r c0 cell px b _ _; exact Or.inr rfl
  | cons p t ih =>
    intro i r c0 cell px b hfun hpx
    rw [paint_grid_row_cons]
    rcases ih _ r c0 cell px b (fun a1 ha1 => hfun a1 (List.mem_cons_of_mem _ ha1)) hpx
      with h | h
    · exact Or.inl h
    · rw [h]
      by_cases hc : p.1 = c0
      · have hp2 : p.2 = cell := hfun p.2 (by rw [← hc]; exact List.mem_cons_self _ _)
        rw [hp2]
        rcases paint_pattern_pix_cases (get_char_pattern cell.character).enum i (p.1 * 8)
          (r * 12) cell.color (c0 * 8 + px) b with h2 | h2
        · exact Or.inl h2
        · exact Or.inr h2
      · refine Or.inr (paint_pattern_pix_outside _ i _ _ _ _ b (glyph_enum_wf hglyph _) ?_)
        intro hreg
        exact hc (by omega)

theorem paint_grid_row_pix_on (hglyph : GlyphTableWf) (l : List (Nat × AsciiPixel)) :
    ∀ (i : Img) (r : Nat) (c0 : Nat) (cell : AsciiPixel) (px py : Nat)
      (rowp : List Bool),
      (c0, cell) ∈ l → (∀ a1 : AsciiPixel, (c0, a1) ∈ l → a1 = cell) → px < 8 →
      (py, rowp) ∈ (get_char_pattern cell.character).enum → (px, true) ∈ rowp.enum →
      c0 * 8 + px < i.width → r * 12 + py < i.height →
      (paint_grid_row i r l).pix (c0 * 8 + px) (r * 12 + py) = cell.color := by
  induction l with
  | nil => intro i r c0 cell px py rowp hmem; exact absurd hmem (by simp)
  | cons p t ih =>
    intro i r c0 cell px py rowp hmem hfun hpx hrowp hbit hxlt hylt
    rw [paint_grid_row_cons]
    by_cases hc : p.1 = c0
    · have hp2 : p.2 = cell := hfun p.2 (by rw [← hc]; exact List.mem_cons_self _ _)
      have h1 : (paint_pattern i (p.1 * 8) (r * 12) p.2.color
            (get_char_pattern p.2.character).enum).pix (c0 * 8 + px) (r * 12 + py) =
          cell.color := by
        rw [hp2, hc]
        exact paint_pattern_pix_on _ i _ _ _ py rowp px hrowp hbit hxlt hylt
      rcases paint_grid_row_pix_cases hglyph t _ r c0 cell px (r * 12 + py)
        (fun a1 ha1 => hfun a1 (List.mem_cons_of_mem _ ha1)) hpx with h2 | h2
      · exact h2
      · rw [h2, h1]
    · have hmem2 : (c0, cell) ∈ t := by
        rcases List.mem_cons.mp hmem with heq | h
        · exact absurd (congrArg Prod.fst heq).symm hc
        · exact h
      have hstep : (paint_pattern i (p.1 * 8) (r * 12) p.2.color
            (get_char_pattern p.2.character).enum).pix (c0 * 8 + px) (r * 12 + py) =
          i.pix (c0 * 8 + px) (r * 12 + py) := by
        refine paint_pattern_pix_outside _ i _ _ _ _ _ (glyph_enum_wf hglyph _) ?_
        intro hreg
        exact hc (by omega)
      have := ih (paint_pattern i (p.1 * 8) (r * 12) p.2.color
          (get_char_pattern p.2.character).enum) r c0 cell px py rowp hmem2
        (fun a1 ha1 => hfun a1 (List.mem_cons_of_mem _ ha1)) hpx hrowp hbit
        (by rw [paint_pattern_width]; exact hxlt)
        (by rw [paint_pattern_height]; exact hylt)
      exact this

theorem paint_grid_row_pix_off (hglyph : GlyphTableWf) (l : List (Nat × AsciiPixel)) :
    ∀ (i : Img) (r : Nat) (c0 : Nat) (cell : AsciiPixel) (px py : Nat),
      (∀ a1 : AsciiPixel, (c0, a1) ∈ l → a1 = cell) → px < 8 → py < 12 →
      (¬∃ rowp : List Bool, (py, rowp) ∈ (get_char_pattern cell.character).enum ∧
        (px, true) ∈ rowp.enum) →
      (paint_grid_row i r l).pix (c0 * 8 + px) (r * 12 + py) =
        i.pix (c0 * 8 + px) (r * 12 + py) := by
  induction l with
  | nil => intro i r c0 cell px py _ _ _ _; rfl
  | cons p t ih =>
    intro i r c0 cell px py hfun hpx hpy hoff
    rw [paint_grid_row_cons]
    rw [ih _ r c0 cell px py (fun a1 ha1 => hfun a1 (List.mem_cons_of_mem _ ha1)) hpx hpy hoff]
    by_cases hc : p.1 = c0
    · have hp2 : p.2 = cell := hfun p.2 (by rw [← hc]; exact List.mem_cons_self _ _)
      refine paint_pattern_pix_untouched _ i _ _ _ _ _ ?_
      intro py2 row2 px2 hrow2 hbit2 heq
      have hwf := glyph_enum_wf hglyph p.2.character _ hrow2
      have hpx2 : px2 < row2.length := mem_enum_lt hbit2
      have hpx2_8 : px2 < 8 := by omega
      have hpy2 : py2 < 12 := hwf.1
      have hpxeq : px2 = px := by omega
      have hpyeq : py2 = py := by omega
      apply hoff
      refine ⟨row2, ?_, ?_⟩
      · rw [← hpyeq, ← hp2]; exact hrow2
      · rw [← hpxeq]; exact hbit2
    · refine paint_pattern_pix_outside _ i _ _ _ _ _ (glyph_enum_wf hglyph _) ?_
      intro hreg
      exact hc (by omega)

theorem paint_grid_row_pix_oob (l : List (Nat × AsciiPixel)) :
    ∀ (i : Img) (r : Nat) (a b : Nat),
      i.width ≤ a ∨ i.height ≤ b →
      (paint_grid_row i r l).pix a b = i.pix a b := by
  induction l with
  | nil => intro i r a b _; rfl
  | cons p t ih =>
    intro i r a b hoob
    rw [paint_grid_row_cons]
    rw [ih _ r a b (by rw [paint_pattern_width, paint_pattern_height]; exact hoob)]
    exact paint_pattern_pix_oob _ i _ _ _ a b hoob

-- level 4 lemmas

theorem paint_grid_nil (i : Img) : paint_grid i [] = i := rfl

theorem paint_grid_cons (i : Img) (p : Nat × List AsciiPixel)
    (t : List (Nat × List AsciiPixel)) :
    paint_grid i (p :: t) = paint_grid (paint_grid_row i p.1 p.2.enum) t := rfl

theorem paint_grid_width (l : List (Nat × List AsciiPixel)) :
    ∀ i : Img, (paint_grid i l).width = i.width := by
  induction l with
  | nil => intro i; rfl
  | cons p t ih =>
    intro i
    rw [paint_grid_cons, ih, paint_grid_row_width]

theorem paint_grid_height (l : List (Nat × List AsciiPixel)) :
    ∀ i : Img, (paint_grid i l).height = i.height := by
  induction l with
  | nil => intro i; rfl
  | cons p t ih =>
    intro i
    rw [paint_grid_cons, ih, paint_grid_row_height]

theorem paint_grid_pix_cases (hglyph : GlyphTableWf) (l : List (Nat × List AsciiPixel)) :
    ∀ (i : Img) (r c0 : Nat) (row : List AsciiPixel) (cell : AsciiPixel) (px py : Nat),
      (∀ a1 : List AsciiPixel, (r, a1) ∈ l → a1 = row) → row.get? c0 = some cell →
      px < 8 → py < 12 →
      (paint_grid i l).pix (c0 * 8 + px) (r * 12 + py) = cell.color ∨
        (paint_grid i l).pix (c0 * 8 + px) (r * 12 + py) =
          i.pix (c0 * 8 + px) (r * 12 + py) := by
  induction l with
  | nil => intro i r c0 row cell px py _ _ _ _; exact Or.inr rfl
  | cons p t ih =>
    intro i r c0 row cell px py hfun hcell hpx hpy
    rw [paint_grid_cons]
    rcases ih _ r c0 row cell px py (fun a1 ha1 => hfun a1 (List.mem_cons_of_mem _ ha1))
      hcell hpx hpy with h | h
    · exact Or.inl h
    · rw [h]
      by_cases hr : p.1 = r
      · have hp2 : p.2 = row := hfun p.2 (by rw [← hr]; exact List.mem_cons_self _ _)
        have hfc : ∀ a1 : AsciiPixel, (c0, a1) ∈ p.2.enum → a1 = cell := by
          intro a1 ha1
          rw [hp2] at ha1
          exact mem_enum_unique ha1 hcell
        rcases paint_grid_row_pix_cases hglyph p.2.enum i p.1 c0 cell px (r * 12 + py)
          hfc hpx with h2 | h2
        · exact Or.inl h2
        · exact Or.inr h2
      · exact Or.inr (paint_grid_row_pix_other_row hglyph p.2.enum i p.1 _ _
          (fun hreg => hr (by omega)))

theorem paint_grid_pix_on (hglyph : GlyphTableWf) (l : List (Nat × List AsciiPixel)) :
    ∀ (i : Img) (r c0 : Nat) (row : List AsciiPixel) (cell : AsciiPixel) (px py : Nat)
      (rowp : List Bool),
      (r, row) ∈ l → (∀ a1 : List AsciiPixel, (r, a1) ∈ l → a1 = row) →
      row.get? c0 = some cell → px < 8 → py < 12 →
      (py, rowp) ∈ (get_char_pattern cell.character).enum → (px, true) ∈ rowp.enum →
      c0 * 8 + px < i.width → r * 12 + py < i.height →
      (paint_grid i l).pix (c0 * 8 + px) (r * 12 + py) = cell.color := by
  induction l with
  | nil => intro i r c0 row cell px py rowp hmem; exact absurd hmem (by simp)
  | cons p t ih =>
    intro i r c0 row cell px py rowp hmem hfun hcell hpx hpy hrowp hbit hxlt hylt
    rw [paint_grid_cons]
    by_cases hr : p.1 = r
    · have hp2 : p.2 = row := hfun p.2 (by rw [← hr]; exact List.mem_cons_self _ _)
      have hfc : ∀ a1 : AsciiPixel, (c0, a1) ∈ p.2.enum → a1 = cell := by
        intro a1 ha1
        rw [hp2] at ha1
        exact mem_enum_unique ha1 hcell
      have hcm : (c0, cell) ∈ p.2.enum := by
        rw [hp2]
        exact get?_mem_enum hcell
      have h1 : (paint_grid_row i p.1 p.2.enum).pix (c0 * 8 + px) (r * 12 + py) =
          cell.color := by
        rw [hr]
        exact paint_grid_row_pix_on hglyph p.2.enum i r c0 cell px py rowp hcm hfc hpx
          hrowp hbit hxlt hylt
      rcases paint_grid_pix_cases hglyph t _ r c0 row cell px py
        (fun a1 ha1 => hfun a1 (List.mem_cons_of_mem _ ha1)) hcell hpx hpy with h2 | h2
      · exact h2
      · rw [h2, h1]
    · have hmem2 : (r, row) ∈ t := by
        rcases List.mem_cons.mp hmem with heq | h
        · exact absurd (congrArg Prod.fst heq).symm hr
        · exact h
      have := ih (paint_grid_row i p.1 p.2.enum) r c0 row cell px py rowp hmem2
        (fun a1 ha1 => hfun a1 (List.mem_cons_of_mem _ ha1)) hcell hpx hpy hrowp hbit
        (by rw [paint_grid_row_width]; exact hxlt)
        (by rw [paint_grid_row_height]; exact hylt)
      exact this

theorem paint_grid_pix_off (hglyph : GlyphTableWf) (l : List (Nat × List AsciiPixel)) :
    ∀ (i : Img) (r c0 : Nat) (row : List AsciiPixel) (cell : AsciiPixel) (px py : Nat),
      (∀ a1 : List AsciiPixel, (r, a1) ∈ l → a1 = row) → row.get? c0 = some cell →
      px < 8 → py < 12 →
      (¬∃ rowp : List Bool, (py, rowp) ∈ (get_char_pattern cell.character).enum ∧
        (px, true) ∈ rowp.enum) →
      (paint_grid i l).pix (c0 * 8 + px) (r * 12 + py) =
        i.pix (c0 * 8 + px) (r * 12 + py) := by
  induction l with
  | nil => intro i r c0 row cell px py _ _ _ _ _; rfl
  | cons p t ih =>
    intro i r c0 row cell px py hfun hcell hpx hpy hoff
    rw [paint_grid_cons]
    rw [ih _ r c0 row cell px py (fun a1 ha1 => hfun a1 (List.mem_cons_of_mem _ ha1))
      hcell hpx hpy hoff]
    by_cases hr : p.1 = r
    · have hp2 : p.2 = row := hfun p.2 (by rw [← hr]; exact List.mem_cons_self _ _)
      have hfc : ∀ a1 : AsciiPixel, (c0, a1) ∈ p.2.enum → a1 = cell := by
        intro a1 ha1
        rw [hp2] at ha1
        exact mem_enum_unique ha1 hcell
      rw [← hr]
      exact paint_grid_row_pix_off hglyph p.2.enum i p.1 c0 cell px py hfc hpx hpy hoff
    · exact paint_grid_row_pix_other_row hglyph p.2.enum i p.1 _ _ (fun hreg => hr (by omega))

theorem paint_grid_pix_oob (l : List (Nat × List AsciiPixel)) :
    ∀ (i : Img) (a b : Nat),
      i.width ≤ a ∨ i.height ≤ b →
      (paint_grid i l).pix a b = i.pix a b := by
  induction l with
  | nil => intro i a b _; rfl
  | cons p t ih =>
    intro i a b hoob
    rw [paint_grid_cons]
    rw [ih _ a b (by rw [paint_grid_row_width, paint_grid_row_height]; exact hoob)]
    exact paint_grid_row_pix_oob p.2.enum i p.1 a b hoob


-- bit access conversion

theorem bit_on_iff (hglyph : GlyphTableWf) (ch : Char) (px py : Nat)
    (hpx : px < 8) (hpy : py < 12) :
    ((get_char_pattern ch).getD py []).getD px false = true ↔
      ∃ rowp : List Bool, (py, rowp) ∈ (get_char_pattern ch).enum ∧
        (px, true) ∈ rowp.enum := by
  have hlen : py < (get_char_pattern ch).length := by rw [(hglyph ch).1]; exact hpy
  have h1 : (get_char_pattern ch).get? py = some ((get_char_pattern ch).get ⟨py, hlen⟩) :=
    List.get?_eq_get hlen
  set rowp0 := (get_char_pattern ch).get ⟨py, hlen⟩ with hrowp0
  have hrmem : rowp0 ∈ get_char_pattern ch := List.get_mem _ _ _
  have hrlen : px < rowp0.length := by rw [(hglyph ch).2 rowp0 hrmem]; exact hpx
  have h2 : rowp0.get? px = some (rowp0.get ⟨px, hrlen⟩) := List.get?_eq_get hrlen
  have hD1 : (get_char_pattern ch).getD py [] = rowp0 := by
    rw [List.getD_eq_getElem?_getD, ← List.get?_eq_getElem?, h1]
    rfl
  have hD2 : rowp0.getD px false = rowp0.get ⟨px, hrlen⟩ := by
    rw [List.getD_eq_getElem?_getD, ← List.get?_eq_getElem?, h2]
    rfl
  rw [hD1, hD2]
  constructor
  · intro hon
    exact ⟨rowp0, get?_mem_enum h1, get?_mem_enum (by rw [h2, hon])⟩
  · rintro ⟨rowp, hrow, hbit⟩
    have : rowp = rowp0 := mem_enum_unique hrow h1
    subst this
    have := mem_enum_get? hbit
    rw [h2] at this
    exact Option.some_inj.mp this

-- assembled rasterizer characterization

theorem save_ascii_png_pixels (hglyph : GlyphTableWf) (row0 : List AsciiPixel)
    (rest : List (List AsciiPixel))
    (huni : ∀ row ∈ row0 :: rest, row.length = row0.length) :
    ∃ img : Img, save_ascii_png (row0 :: rest) = some img ∧
      img.width = row0.length * 8 ∧
      img.height = (row0 :: rest).length * 12 ∧
      (∀ a b : Nat, img.width ≤ a ∨ img.height ≤ b → img.pix a b = black) ∧
      (∀ (r c : Nat) (row : List AsciiPixel) (cell : AsciiPixel) (px py : Nat),
        (row0 :: rest).get? r = some row → row.get? c = some cell → px < 8 → py < 12 →
        (((get_char_pattern cell.character).getD py []).getD px false = true →
          img.pix (c * 8 + px) (r * 12 + py) = cell.color) ∧
        (((get_char_pattern cell.character).getD py []).getD px false = false →
          img.pix (c * 8 + px) (r * 12 + py) = black)) := by
  refine ⟨paint_grid
    { width := row0.length * 8, height := (row0 :: rest).length * 12,
      pix := fun _ _ => black } ((row0 :: rest).enum), rfl, ?_, ?_, ?_, ?_⟩
  · rw [paint_grid_width]
  · rw [paint_grid_height]
  · intro a b hoob
    rw [paint_grid_width] at hoob
    rw [paint_grid_height] at hoob
    rw [paint_grid_pix_oob _ _ a b hoob]
  · intro r c row cell px py hrow hcell hpx hpy
    have hfun : ∀ a1 : List AsciiPixel, (r, a1) ∈ (row0 :: rest).enum → a1 = row :=
      fun a1 ha1 => mem_enum_unique ha1 hrow
    have hrlt : r < (row0 :: rest).length := by
      rcases List.get?_eq_some.mp hrow with ⟨h, _⟩
      exact h
    have hclt : c < row.length := by
      rcases List.get?_eq_some.mp hcell with ⟨h, _⟩
      exact h
    have hrow_mem : row ∈ row0 :: rest := List.get?_mem hrow
    have hclen : row.length = row0.length := huni row hrow_mem
    have hxlt : c * 8 + px < row0.length * 8 := by omega
    have hylt : r * 12 + py < (row0 :: rest).length * 12 := by omega
    constructor
    · intro hon
      obtain ⟨rowp, hrowp, hbit⟩ := (bit_on_iff hglyph cell.character px py hpx hpy).mp hon
      exact paint_grid_pix_on hglyph ((row0 :: rest).enum) _ r c row cell px py rowp
        (get?_mem_enum hrow) hfun hcell hpx hpy hrowp hbit hxlt hylt
    · intro hoffv
      have hoff : ¬∃ rowp : List Bool,
          (py, rowp) ∈ (get_char_pattern cell.character).enum ∧ (px, true) ∈ rowp.enum := by
        intro hex
        have := (bit_on_iff hglyph cell.character px py hpx hpy).mpr hex
        rw [hoffv] at this
        exact Bool.false_ne_true this
      rw [paint_grid_pix_off hglyph ((row0 :: rest).enum) _ r c row cell px py hfun hcell
        hpx hpy hoff]


-- blank glyph lemmas (SPACE defined as in the main development)

theorem offRow_no_on (px : Nat) : (px, true) ∉ offRow.enum := by
  intro h
  have hmem : true ∈ offRow := List.get?_mem (mem_enum_get? h)
  exact absurd hmem (by decide)

theorem paint_pattern_space (i : Img) (bx by2 : Nat) (c : Color) (a b : Nat) :
    (paint_pattern i bx by2 c SPACE.enum).pix a b = i.pix a b := by
  refine paint_pattern_pix_untouched _ i bx by2 c a b ?_
  intro py row px hrow hbit heq
  have hmem : row ∈ SPACE := List.get?_mem (mem_enum_get? hrow)
  have hrow_off : row = offRow := by
    have : ∀ r2 ∈ SPACE, r2 = offRow := by decide
    exact this row hmem
  rw [hrow_off] at hbit
  exact offRow_no_on px hbit

theorem paint_grid_row_blank (hspace : get_char_pattern ' ' = SPACE)
    (l : List (Nat × AsciiPixel)) :
    ∀ (i : Img) (r a b : Nat),
      (∀ cb ∈ l, (cb : Nat × AsciiPixel).2.character = ' ') →
      (paint_grid_row i r l).pix a b = i.pix a b := by
  induction l with
  | nil => intro i r a b _; rfl
  | cons p t ih =>
    intro i r a b hblank
    rw [paint_grid_row_cons]
    rw [ih _ r a b fun cb hcb => hblank cb (List.mem_cons_of_mem _ hcb)]
    rw [hblank p (List.mem_cons_self _ _), hspace]
    exact paint_pattern_space i _ _ _ a b

theorem paint_grid_blank (hspace : get_char_pattern ' ' = SPACE)
    (l : List (Nat × List AsciiPixel)) :
    ∀ (i : Img) (a b : Nat),
      (∀ rr ∈ l, ∀ cb ∈ (rr.2 : List AsciiPixel).enum,
        (cb : Nat × AsciiPixel).2.character = ' ') →
      (paint_grid i l).pix a b = i.pix a b := by
  induction l with
  | nil => intro i a b _; rfl
  | cons p t ih =>
    intro i a b hblank
    rw [paint_grid_cons]
    rw [ih _ a b fun rr hrr => hblank rr (List.mem_cons_of_mem _ hrr)]
    exact paint_grid_row_blank hspace p.2.enum i p.1 a b
      (hblank p (List.mem_cons_self _ _))

set_option maxHeartbeats 2000000 in
set_option maxRecDepth 8000 in
/-- Every arm of the character-to-glyph lookup returns a 12-by-8 bitmap. -/
theorem glyph_wf_all : GlyphTableWf := by
  unfold GlyphTableWf
  intro ch
  unfold get_char_pattern
  split <;> decide

/-! ## Claims C4, C8, C10 -/

/-- C4: for every non-empty grid with uniform row length, the rasterized
output image has dimensions exactly (grid width * 8, grid height * 12);
pixels outside the painted glyph bits stay at the initial black; the pixel at
(c*8+px, r*12+py) carries the color of the cell at row r, column c exactly
when that cell's glyph bit at (px, py) is on, and stays black when the bit is
off; and coordinates outside the image are never written (they stay black). -/
theorem claim_C4 :
    ∀ (row0 : List AsciiPixel) (rest : List (List AsciiPixel)),
      (∀ row ∈ row0 :: rest, row.length = row0.length) →
      ∃ img : Img, save_ascii_png (row0 :: rest) = some img ∧
        img.width = row0.length * 8 ∧
        img.height = (row0 :: rest).length * 12 ∧
        (∀ a b : Nat, img.width ≤ a ∨ img.height ≤ b → img.pix a b = black) ∧
        (∀ (r c : Nat) (row : List AsciiPixel) (cell : AsciiPixel) (px py : Nat),
          (row0 :: rest).get? r = some row → row.get? c = some cell → px < 8 → py < 12 →
          (((get_char_pattern cell.character).getD py []).getD px false = true →
            img.pix (c * 8 + px) (r * 12 + py) = cell.color) ∧
          (((get_char_pattern cell.character).getD py []).getD px false = false →
            img.pix (c * 8 + px) (r * 12 + py) = black)) :=
  fun row0 rest huni => save_ascii_png_pixels glyph_wf_all row0 rest huni

/-- C4, witness: the rasterizer characterization applied to a one-cell grid. -/
theorem claim_C4_witness :
    ∃ img : Img,
      save_ascii_png [[{ character := '@', color := (255, 255, 255) }]] = some img ∧
      img.width = [({ character := '@', color := (255, 255, 255) } : AsciiPixel)].length * 8 ∧
      img.height = [[({ character := '@', color := (255, 255, 255) } : AsciiPixel)]].length * 12 ∧
      (∀ a b : Nat, img.width ≤ a ∨ img.height ≤ b → img.pix a b = black) ∧
      (∀ (r c : Nat) (row : List AsciiPixel) (cell : AsciiPixel) (px py : Nat),
        [[({ character := '@', color := (255, 255, 255) } : AsciiPixel)]].get? r = some row →
        row.get? c = some cell → px < 8 → py < 12 →
        (((get_char_pattern cell.character).getD py []).getD px false = true →
          img.pix (c * 8 + px) (r * 12 + py) = cell.color) ∧
        (((get_char_pattern cell.character).getD py []).getD px false = false →
          img.pix (c * 8 + px) (r * 12 + py) = black)) :=
  claim_C4 [{ character := '@', color := (255, 255, 255) }] [] (by decide)

/-- Every preset palette starts with the blank character at index zero. -/
theorem chars_getD_zero : ∀ d : DensityPreset, d.get_chars.getD 0 ' ' = ' ' := by
  intro d
  cases d <;> rfl

/-- C8: for an all-black source image of any size and any density preset,
every grid cell selects the character at palette index 0, which is the blank
space, and the rasterized output image is fully black, the blank glyph having
no on-bits. -/
theorem claim_C8 :
    ∀ (img : SourceImage) (tw : Nat) (d : DensityPreset),
    (∀ x y : Nat, (img.pix x y).r = 0 ∧ (img.pix x y).g = 0 ∧ (img.pix x y).b = 0) →
    (∀ row ∈ process_image img tw d, ∀ cell ∈ row,
        cell.character = d.get_chars.getD 0 ' ' ∧ cell.character = ' ') ∧
      (∀ out : Img, save_ascii_png (process_image img tw d) = some out →
        ∀ a b : Nat, out.pix a b = black) := by
  intro img tw d hblack
  have hcell : ∀ x y : Nat,
      (sample_cell (resize_exact img tw (target_height img.width img.height tw))
          d x y).character = ' ' := by
    intro x y
    unfold sample_cell resize_exact
    dsimp only
    have h := hblack (x * img.width / tw)
      (y * img.height / target_height img.width img.height tw)
    have hbr : brightness (img.pix (x * img.width / tw)
        (y * img.height / target_height img.width img.height tw)) = 0 := by
      unfold brightness
      rw [h.1, h.2.1, h.2.2]
      norm_num
    rw [hbr, char_index_zero]
    exact chars_getD_zero d
  have hpart1 : ∀ row ∈ process_image img tw d, ∀ cell ∈ row, cell.character = ' ' := by
    intro row hrow cell hc
    simp only [process_image, List.mem_map] at hrow
    obtain ⟨y, hy, rfl⟩ := hrow
    simp only [List.mem_map] at hc
    obtain ⟨x, hx, rfl⟩ := hc
    exact hcell x y
  refine ⟨fun row hrow cell hc =>
    ⟨(hpart1 row hrow cell hc).trans (chars_getD_zero d).symm, hpart1 row hrow cell hc⟩, ?_⟩
  intro out hsave a b
  cases hgrid : process_image img tw d with
  | nil =>
    rw [hgrid] at hsave
    exact absurd hsave (by simp [save_ascii_png])
  | cons r0 rest =>
    rw [hgrid] at hsave
    have hout : out = paint_grid
        { width := r0.length * 8, height := (r0 :: rest).length * 12,
          pix := fun _ _ => black } ((r0 :: rest).enum) := by
      simpa [save_ascii_png] using hsave.symm
    subst hout
    have hall : ∀ rr ∈ (r0 :: rest).enum, ∀ cb ∈ (rr.2 : List AsciiPixel).enum,
        (cb : Nat × AsciiPixel).2.character = ' ' := by
      intro rr hrr cb hcb
      obtain ⟨ri, rowv⟩ := rr
      obtain ⟨ci, cellv⟩ := cb
      have hrow_mem : rowv ∈ r0 :: rest := List.get?_mem (mem_enum_get? hrr)
      have hcell_mem : cellv ∈ rowv := List.get?_mem (mem_enum_get? hcb)
      exact hpart1 rowv (hgrid ▸ hrow_mem) cellv hcell_mem
    rw [paint_grid_blank rfl ((r0 :: rest).enum) _ a b hall]

/-- C8, witness: a concrete all-black 2-by-2 source at target width 4. -/
theorem claim_C8_witness :
    (∀ row ∈ process_image ⟨2, 2, fun _ _ => ⟨0, 0, 0, 255⟩⟩ 4 DensityPreset.Low, ∀ cell ∈ row,
        cell.character = DensityPreset.Low.get_chars.getD 0 ' ' ∧ cell.character = ' ') ∧
      (∀ out : Img,
        save_ascii_png (process_image ⟨2, 2, fun _ _ => ⟨0, 0, 0, 255⟩⟩ 4 DensityPreset.Low) =
          some out → ∀ a b : Nat, out.pix a b = black) :=
  claim_C8 ⟨2, 2, fun _ _ => ⟨0, 0, 0, 255⟩⟩ 4 DensityPreset.Low (fun _ _ => ⟨rfl, rfl, rfl⟩)

/-- The derived target height of a 1-by-1 source image at target width 1 is
zero (the expression 0.5 truncates to 0). -/
theorem target_height_1_1_1 : target_height 1 1 1 = 0 := by
  simp only [target_height]
  rw [Nat.floor_eq_iff (by positivity)]
  norm_num

/-- C10: calling save_ascii_png on an empty grid does not produce a
persistence error value: it aborts (the Rust code panics indexing
`ascii_data[0]`, modelled as `none`), and process_image produces exactly such
an empty grid whenever the derived target height is zero. -/
theorem claim_C10 :
    save_ascii_png [] = none ∧
      ∀ (img : SourceImage) (tw : Nat) (d : DensityPreset),
        target_height img.width img.height tw = 0 → process_image img tw d = [] := by
  refine ⟨rfl, ?_⟩
  intro img tw d h
  simp [process_image, h]

/-- C10, witness: a 1-by-1 source at target width 1 derives height 0 and
yields the empty grid. -/
theorem claim_C10_witness :
    process_image ⟨1, 1, fun _ _ => ⟨200, 10, 30, 255⟩⟩ 1 DensityPreset.Ultra = [] :=
  claim_C10.2 ⟨1, 1, fun _ _ => ⟨200, 10, 30, 255⟩⟩ 1 DensityPreset.Ultra target_height_1_1_1

end Bitify
